import Mathlib

/-!
Verification of the Game of Life grid engine (`src/lib.rs`).

The Rust `Universe` struct is embedded shallowly: `u32` values become `Nat`,
`Vec<Cell>` becomes `List Cell`, and operations that can panic (out-of-bounds
indexing, `%` by zero, `u32` underflow of `height - 1`, `slice::chunks(0)`)
return `Option` with `none` modelling the panic.  The canvas element that the
constructor and the resize methods mutate is modelled by two `Nat` fields
(`canvasWidth`, `canvasHeight`) holding the pixel dimensions passed to
`canvas.set_width` / `canvas.set_height`.  The nondeterministic
`js_sys::Math::random` coin flips are modelled by an oracle `Nat → Bool`
indexed by the cell position being initialised.
-/

namespace GameOfLife

/-- `Cell` from the source: a two-valued state. -/
inductive Cell where
  | Dead : Cell
  | Alive : Cell
deriving DecidableEq, Repr

/-- `Cell::toggle`: flips Dead and Alive. -/
def Cell.toggle : Cell → Cell
  | Cell.Alive => Cell.Dead
  | Cell.Dead => Cell.Alive

/-- `Cell::set_alive`: forces the state to Alive. -/
def Cell.set_alive : Cell → Cell := fun _ => Cell.Alive

/-- `CELL_SIZE` constant from the source. -/
def CELL_SIZE : Nat := 15

/-- The `Universe` struct.  `canvasWidth`/`canvasHeight` model the pixel
dimensions of the canvas element the struct holds a handle to. -/
structure Universe where
  height : Nat
  width : Nat
  cells : List Cell
  canvasHeight : Nat
  canvasWidth : Nat
deriving DecidableEq, Repr

/-- `random_cells`: one independent random cell per index in
`0 .. width*height`; the random source is the oracle `rnd`. -/
def random_cells (width height : Nat) (rnd : Nat → Bool) : List Cell :=
  (List.range (width * height)).map (fun i => if rnd i then Cell.Alive else Cell.Dead)

/-- `Universe::new(canvas_id, width, height)`.  The source computes
`canvas_height = (CELL_SIZE + 1) * width + 1` and
`canvas_width = (CELL_SIZE + 1) * height + 1` (note: from `width` and `height`
respectively, exactly as written in the source) and passes them to
`canvas.set_height` / `canvas.set_width`. -/
def Universe.new (width height : Nat) (rnd : Nat → Bool) : Universe :=
  { height := height
    width := width
    cells := random_cells width height rnd
    canvasHeight := (CELL_SIZE + 1) * width + 1
    canvasWidth := (CELL_SIZE + 1) * height + 1 }

/-- `Universe::random_mutate`: replaces the whole cell vector with fresh
random cells of the current dimensions. -/
def Universe.random_mutate (u : Universe) (rnd : Nat → Bool) : Universe :=
  { u with cells := random_cells u.width u.height rnd }

/-- `Universe::get_index`: `row * self.width + column`. -/
def Universe.get_index (u : Universe) (row column : Nat) : Nat :=
  row * u.width + column

/-- The pairs `(delta_row, delta_col)` visited by the nested loops of
`live_neighbor_count`: `delta_row` ranges over `[height-1, 0, 1]` and
`delta_col` over `[width-1, 0, 1]`. -/
def Universe.neighborDeltas (u : Universe) : List (Nat × Nat) :=
  [u.height - 1, 0, 1].flatMap (fun dr => [u.width - 1, 0, 1].map (fun dc => (dr, dc)))

/-- One iteration of the `live_neighbor_count` loop body: skip when both
deltas are zero, otherwise read the wrapped neighbour (a panicking `Vec`
index, modelled by `Option`) and bump the count if it is Alive. -/
def Universe.neighborStep (u : Universe) (row column : Nat)
    (count : Nat) (p : Nat × Nat) : Option Nat :=
  if p.1 = 0 ∧ p.2 = 0 then some count
  else
    let neighbour_row := (row + p.1) % u.height
    let neighbour_col := (column + p.2) % u.width
    match u.cells.get? (u.get_index neighbour_row neighbour_col) with
    | some Cell.Alive => some (count + 1)
    | some Cell.Dead => some count
    | none => none

/-- `Universe::live_neighbor_count`.  When `height = 0` the source panics
(`height - 1` underflows in debug, `% height` divides by zero), and likewise
for `width = 0`; both are modelled by `none`. -/
def Universe.live_neighbor_count (u : Universe) (row column : Nat) : Option Nat :=
  if u.height = 0 ∨ u.width = 0 then none
  else u.neighborDeltas.foldlM (u.neighborStep row column) 0

/-- The `match (cell, live_neighbors)` of `Universe::tick`, branch by branch
(the final `(otherwise, _) => otherwise` arm keeps the current state). -/
def next_cell : Cell → Nat → Cell
  | Cell.Alive, x =>
      if x < 2 then Cell.Dead
      else if x = 2 ∨ x = 3 then Cell.Alive
      else if 3 < x then Cell.Dead
      else Cell.Alive
  | Cell.Dead, x => if x = 3 then Cell.Alive else Cell.Dead

/-- The `(row, col)` pairs visited by the nested loops of `tick`, in
row-major order. -/
def rowMajor (height width : Nat) : List (Nat × Nat) :=
  (List.range height).flatMap (fun row => (List.range width).map (fun col => (row, col)))

/-- One iteration of the `tick` loop body: read the current cell and its live
neighbour count from the pre-tick `self.cells`, and write the next state into
the working copy `next` (a panicking `Vec` index write, modelled by an
in-bounds check). -/
def Universe.tickStep (u : Universe) (next : List Cell) (p : Nat × Nat) : Option (List Cell) := do
  let idx := u.get_index p.1 p.2
  let cell ← u.cells.get? idx
  let live_neighbors ← u.live_neighbor_count p.1 p.2
  if idx < next.length then pure (next.set idx (next_cell cell live_neighbors)) else none

/-- `Universe::tick`: clone the cells into `next`, run the loop body over
every `(row, col)`, then replace `self.cells` with `next`. -/
def Universe.tick (u : Universe) : Option Universe := do
  let next ← (rowMajor u.height u.width).foldlM u.tickStep u.cells
  pure { u with cells := next }

/-- `Universe::set_width`: resizes the canvas element's pixel width to
`(CELL_SIZE + 1) * width + 1`, sets the new width, and rebuilds the cells as
`(0..width * self.height).map(|_| Cell::Dead)`. -/
def Universe.set_width (u : Universe) (width : Nat) : Universe :=
  { u with
    canvasWidth := (CELL_SIZE + 1) * width + 1
    width := width
    cells := (List.range (width * u.height)).map (fun _ => Cell.Dead) }

/-- `Universe::set_height`: resizes the canvas element's pixel height to
`(CELL_SIZE + 1) * height + 1`, sets the new height, and rebuilds the cells as
`(0..height * self.width).map(|_| Cell::Dead)`. -/
def Universe.set_height (u : Universe) (height : Nat) : Universe :=
  { u with
    canvasHeight := (CELL_SIZE + 1) * height + 1
    height := height
    cells := (List.range (height * u.width)).map (fun _ => Cell.Dead) }

/-- `Universe::toggle_cell`: `self.cells[idx].toggle()` at
`idx = get_index(row, column)`; the index panics out of bounds. -/
def Universe.toggle_cell (u : Universe) (row column : Nat) : Option Universe := do
  let idx := u.get_index row column
  let c ← u.cells.get? idx
  pure { u with cells := u.cells.set idx c.toggle }

/-- `Universe::set_alive_cell`: `self.cells[idx].set_alive()` at
`idx = get_index(row, column)`; the index panics out of bounds. -/
def Universe.set_alive_cell (u : Universe) (row column : Nat) : Option Universe := do
  let idx := u.get_index row column
  let c ← u.cells.get? idx
  pure { u with cells := u.cells.set idx c.set_alive }

/-- `Universe::set_cells`: for each `(row, col)` in order, write
`Cell::Alive` at `get_index(row, col)` (a panicking `Vec` index write). -/
def Universe.setCellsStep (v : Universe) (p : Nat × Nat) : Option Universe :=
  if v.get_index p.1 p.2 < v.cells.length
  then some { v with cells := v.cells.set (v.get_index p.1 p.2) Cell.Alive }
  else none

def Universe.set_cells (u : Universe) (ps : List (Nat × Nat)) : Option Universe :=
  ps.foldlM Universe.setCellsStep u

/-- The glyph written by `Display::fmt`: `'◻'` for Dead, `'◼'` otherwise. -/
def cellGlyph (c : Cell) : Char :=
  if c = Cell.Dead then '◻' else '◼'

/-- `slice::chunks(size)` for the non-panicking case `size ≠ 0`: successive
sub-lists of length `size`, the last possibly shorter. -/
def chunksList (size : Nat) (l : List Cell) : List (List Cell) :=
  if h : size = 0 ∨ l = [] then []
  else l.take size :: chunksList size (l.drop size)
termination_by l.length
decreasing_by
  simp only [not_or] at h
  have hl : 0 < l.length := List.length_pos.mpr h.2
  have hs : 0 < size := Nat.pos_of_ne_zero h.1
  simp only [List.length_drop]
  omega

/-- `Universe::render`, i.e. `Display for Universe`: one pass over
`cells.chunks(width)`, writing each row's glyphs then a newline.
`slice::chunks` asserts that the chunk size is non-zero, so `width = 0`
panics (modelled by `none`). -/
def Universe.render (u : Universe) : Option String :=
  if u.width = 0 then none
  else
    some ((chunksList u.width u.cells).foldl
      (fun acc line => acc ++ String.mk (line.map cellGlyph) ++ "\n") "")

/-! ### Pure (non-monadic) descriptions of the loops, proved equal below -/

/-- The contribution of one delta pair to the neighbour count: `0` when the
pair is skipped, otherwise `1` exactly when the wrapped neighbour is Alive. -/
def Universe.contrib (u : Universe) (row column : Nat) (p : Nat × Nat) : Nat :=
  if p.1 = 0 ∧ p.2 = 0 then 0
  else if u.cells.get? (u.get_index ((row + p.1) % u.height) ((column + p.2) % u.width))
      = some Cell.Alive then 1 else 0

/-- Pure value of `live_neighbor_count` (when it does not panic). -/
def Universe.countPure (u : Universe) (row column : Nat) : Nat :=
  (u.neighborDeltas.map (u.contrib row column)).sum

/-- The cell stored at linear index `idx` (Dead when out of range). -/
def Universe.cellAt (u : Universe) (idx : Nat) : Cell :=
  (u.cells.get? idx).getD Cell.Dead

/-- Pure value of the cell vector produced by `tick`. -/
def Universe.tickCells (u : Universe) : List Cell :=
  (rowMajor u.height u.width).map
    (fun p => next_cell (u.cellAt (u.get_index p.1 p.2)) (u.countPure p.1 p.2))

/-! ### Neighbour-count lemmas -/

theorem index_lt {h w nr nc : Nat} (hr : nr < h) (hc : nc < w) :
    nr * w + nc < w * h := by
  have h1 : nr * w + nc < (nr + 1) * w := by
    have : (nr + 1) * w = nr * w + w := by ring
    omega
  have h2 : (nr + 1) * w ≤ h * w := Nat.mul_le_mul_right w hr
  have h3 : h * w = w * h := Nat.mul_comm h w
  omega

theorem neighborStep_eq (u : Universe) (row column : Nat)
    (hh : u.height ≠ 0) (hw : u.width ≠ 0)
    (hlen : u.cells.length = u.width * u.height) (count : Nat) (p : Nat × Nat) :
    u.neighborStep row column count p = some (count + u.contrib row column p) := by
  unfold Universe.neighborStep Universe.contrib
  by_cases hskip : p.1 = 0 ∧ p.2 = 0
  · simp [hskip]
  · have hr : (row + p.1) % u.height < u.height := Nat.mod_lt _ (Nat.pos_of_ne_zero hh)
    have hc : (column + p.2) % u.width < u.width := Nat.mod_lt _ (Nat.pos_of_ne_zero hw)
    have hidx : u.get_index ((row + p.1) % u.height) ((column + p.2) % u.width)
        < u.cells.length := by
      rw [hlen]; exact index_lt hr hc
    cases hv : u.cells.get? (u.get_index ((row + p.1) % u.height) ((column + p.2) % u.width)) with
    | none => exact absurd (List.get?_eq_none.mp hv) (by omega)
    | some v =>
        rw [List.get?_eq_getElem?] at hv
        cases v <;> simp [hskip, hv]

theorem foldlM_neighborStep (u : Universe) (row column : Nat)
    (hh : u.height ≠ 0) (hw : u.width ≠ 0)
    (hlen : u.cells.length = u.width * u.height) :
    ∀ (l : List (Nat × Nat)) (count : Nat),
      l.foldlM (u.neighborStep row column) count
        = some (count + (l.map (u.contrib row column)).sum) := by
  intro l
  induction l with
  | nil => intro count; simp
  | cons p l ih =>
      intro count
      rw [List.foldlM_cons, neighborStep_eq u row column hh hw hlen count p]
      show l.foldlM (u.neighborStep row column) (count + u.contrib row column p) = _
      rw [ih]
      simp [List.sum_cons, Nat.add_assoc]

theorem live_neighbor_count_eq (u : Universe) (row column : Nat)
    (hh : u.height ≠ 0) (hw : u.width ≠ 0)
    (hlen : u.cells.length = u.width * u.height) :
    u.live_neighbor_count row column = some (u.countPure row column) := by
  unfold Universe.live_neighbor_count Universe.countPure
  rw [if_neg (by tauto), foldlM_neighborStep u row column hh hw hlen, Nat.zero_add]

theorem contrib_le_one (u : Universe) (row column : Nat) (p : Nat × Nat) :
    u.contrib row column p ≤ 1 := by
  unfold Universe.contrib; split_ifs <;> omega

theorem contrib_center (u : Universe) (row column : Nat) :
    u.contrib row column (0, 0) = 0 := by
  simp [Universe.contrib]

theorem countPure_le_eight (u : Universe) (row column : Nat) :
    u.countPure row column ≤ 8 := by
  have h1 := contrib_le_one u row column (u.height - 1, u.width - 1)
  have h2 := contrib_le_one u row column (u.height - 1, 0)
  have h3 := contrib_le_one u row column (u.height - 1, 1)
  have h4 := contrib_le_one u row column (0, u.width - 1)
  have h5 := contrib_center u row column
  have h6 := contrib_le_one u row column (0, 1)
  have h7 := contrib_le_one u row column (1, u.width - 1)
  have h8 := contrib_le_one u row column (1, 0)
  have h9 := contrib_le_one u row column (1, 1)
  unfold Universe.countPure Universe.neighborDeltas
  simp only [List.flatMap_cons, List.flatMap_nil, List.map_cons, List.map_nil,
    List.append_nil, List.cons_append, List.nil_append, List.map_append,
    List.sum_cons, List.sum_nil]
  omega

/-! ### Tick lemmas: the monadic loop equals a pure scatter of pointwise writes -/

theorem tickStep_eq (u : Universe) (hlen : u.cells.length = u.width * u.height)
    (next : List Cell) (hn : next.length = u.width * u.height)
    (p : Nat × Nat) (hp1 : p.1 < u.height) (hp2 : p.2 < u.width) :
    u.tickStep next p
      = some (next.set (u.get_index p.1 p.2)
          (next_cell (u.cellAt (u.get_index p.1 p.2)) (u.countPure p.1 p.2))) := by
  have hh : u.height ≠ 0 := by omega
  have hw : u.width ≠ 0 := by omega
  have hidx : u.get_index p.1 p.2 < u.width * u.height := by
    have := index_lt hp1 hp2
    simpa [Universe.get_index] using this
  cases hv : u.cells.get? (u.get_index p.1 p.2) with
  | none =>
      have := List.get?_eq_none.mp hv
      omega
  | some v =>
      have hl := live_neighbor_count_eq u p.1 p.2 hh hw hlen
      rw [List.get?_eq_getElem?] at hv
      have hcell : u.cellAt (u.get_index p.1 p.2) = v := by
        simp [Universe.cellAt, List.get?_eq_getElem?, hv]
      simp [Universe.tickStep, hv, hl, hn, hidx, hcell]

theorem tick_foldlM (u : Universe) (hlen : u.cells.length = u.width * u.height) :
    ∀ (l : List (Nat × Nat)), (∀ p ∈ l, p.1 < u.height ∧ p.2 < u.width) →
      ∀ (next : List Cell), next.length = u.width * u.height →
        l.foldlM u.tickStep next
          = some (l.foldl
              (fun nx p => nx.set (u.get_index p.1 p.2)
                (next_cell (u.cellAt (u.get_index p.1 p.2)) (u.countPure p.1 p.2)))
              next) := by
  intro l
  induction l with
  | nil => intro _ next _; simp
  | cons p l ih =>
      intro hmem next hn
      have hp := hmem p (List.mem_cons_self p l)
      rw [List.foldlM_cons, tickStep_eq u hlen next hn p hp.1 hp.2]
      show l.foldlM u.tickStep _ = _
      rw [ih (fun q hq => hmem q (List.mem_cons_of_mem p hq)) _
        (by rw [List.length_set]; exact hn), List.foldl_cons]

theorem rowMajor_mem {height width : Nat} {p : Nat × Nat} :
    p ∈ rowMajor height width ↔ p.1 < height ∧ p.2 < width := by
  cases p with
  | mk r c =>
      simp [rowMajor, List.mem_flatMap, List.mem_map, List.mem_range]

theorem rowMajor_map_lin (height width : Nat) :
    (rowMajor height width).map (fun p => p.1 * width + p.2)
      = List.range (height * width) := by
  induction height with
  | zero => simp [rowMajor]
  | succ h ih =>
      have hsplit : rowMajor (h + 1) width
          = rowMajor h width ++ (List.range width).map (fun col => (h, col)) := by
        simp [rowMajor, List.range_succ]
      rw [hsplit, List.map_append, ih, Nat.succ_mul, List.range_add]
      congr 1
      rw [List.map_map]
      apply List.map_congr_left
      intro c _
      simp [Nat.mul_comm]

theorem rowMajor_length (height width : Nat) :
    (rowMajor height width).length = height * width := by
  have := congrArg List.length (rowMajor_map_lin height width)
  simpa using this

theorem scatter_length (g : Nat → Cell) :
    ∀ (k : Nat) (init : List Cell),
      ((List.range k).foldl (fun nx i => nx.set i (g i)) init).length = init.length := by
  intro k
  induction k with
  | zero => intro init; simp
  | succ k ih =>
      intro init
      rw [List.range_succ, List.foldl_append]
      simp [ih]

theorem scatter_get? (g : Nat → Cell) (init : List Cell) :
    ∀ (k : Nat), k ≤ init.length → ∀ (j : Nat),
      ((List.range k).foldl (fun nx i => nx.set i (g i)) init).get? j
        = if j < k then some (g j) else init.get? j := by
  intro k
  induction k with
  | zero => intro _ j; simp
  | succ k ih =>
      intro hk j
      rw [List.range_succ, List.foldl_append]
      simp only [List.foldl_cons, List.foldl_nil]
      by_cases hj : j = k
      · subst hj
        rw [List.get?_set_eq_of_lt]
        · simp
        · rw [scatter_length]; omega
      · rw [List.get?_set_ne _ _ (by omega), ih (by omega) j]
        by_cases hlt : j < k
        · rw [if_pos hlt, if_pos (by omega)]
        · rw [if_neg hlt, if_neg (by omega)]

theorem scatter_eq_map (g : Nat → Cell) (init : List Cell) (n : Nat)
    (hlen : init.length = n) :
    (List.range n).foldl (fun nx i => nx.set i (g i)) init = (List.range n).map g := by
  apply List.ext_get?
  intro j
  rw [scatter_get? g init n (by omega) j, List.get?_map]
  by_cases hj : j < n
  · rw [if_pos hj, List.get?_range hj]
    rfl
  · rw [if_neg hj, List.get?_len_le (by omega), List.get?_len_le (by simp; omega)]
    rfl

theorem lin_div (r c w : Nat) (hc : c < w) : (r * w + c) / w = r := by
  have h1 : r * w + c = c + w * r := by ring
  rw [h1, Nat.add_mul_div_left c r (by omega), Nat.div_eq_of_lt hc]
  omega

theorem lin_mod (r c w : Nat) (hc : c < w) : (r * w + c) % w = c := by
  have h1 : r * w + c = c + w * r := by ring
  rw [h1, Nat.add_mul_mod_self_left, Nat.mod_eq_of_lt hc]

/-- The pointwise next-cell function expressed on linear indices. -/
def Universe.tickCellLin (u : Universe) (i : Nat) : Cell :=
  next_cell (u.cellAt i) (u.countPure (i / u.width) (i % u.width))

theorem tickCellLin_lin (u : Universe) (p : Nat × Nat) (hp2 : p.2 < u.width) :
    u.tickCellLin (p.1 * u.width + p.2)
      = next_cell (u.cellAt (u.get_index p.1 p.2)) (u.countPure p.1 p.2) := by
  simp only [Universe.tickCellLin, Universe.get_index,
    lin_div p.1 p.2 u.width hp2, lin_mod p.1 p.2 u.width hp2]

/-- The pure scatter of the tick writes equals the pointwise map. -/
theorem tick_scatter_eq (u : Universe) (hlen : u.cells.length = u.width * u.height) :
    (rowMajor u.height u.width).foldl
        (fun nx p => nx.set (u.get_index p.1 p.2)
          (next_cell (u.cellAt (u.get_index p.1 p.2)) (u.countPure p.1 p.2))) u.cells
      = u.tickCells := by
  have h1 : (rowMajor u.height u.width).foldl
      (fun nx p => nx.set (u.get_index p.1 p.2)
        (next_cell (u.cellAt (u.get_index p.1 p.2)) (u.countPure p.1 p.2))) u.cells
      = (rowMajor u.height u.width).foldl
          (fun nx p => nx.set (p.1 * u.width + p.2)
            (u.tickCellLin (p.1 * u.width + p.2))) u.cells := by
    apply List.foldl_ext
    intro nx p hp
    rw [tickCellLin_lin u p (rowMajor_mem.mp hp).2]
    rfl
  have h2 : (rowMajor u.height u.width).foldl
      (fun nx p => nx.set (p.1 * u.width + p.2)
        (u.tickCellLin (p.1 * u.width + p.2))) u.cells
      = (List.range (u.height * u.width)).foldl
          (fun nx i => nx.set i (u.tickCellLin i)) u.cells := by
    rw [← rowMajor_map_lin u.height u.width, List.foldl_map]
  have h3 := scatter_eq_map u.tickCellLin u.cells (u.height * u.width)
    (by rw [hlen, Nat.mul_comm])
  have h4 : (List.range (u.height * u.width)).map u.tickCellLin = u.tickCells := by
    rw [← rowMajor_map_lin u.height u.width, List.map_map]
    apply List.map_congr_left
    intro p hp
    exact tickCellLin_lin u p (rowMajor_mem.mp hp).2
  rw [h1, h2, h3, h4]

/-- Central tick lemma: `tick` never panics on a dimension-consistent
universe and replaces the cells with the pure pointwise image `tickCells`. -/
theorem tick_eq (u : Universe) (hlen : u.cells.length = u.width * u.height) :
    u.tick = some { u with cells := u.tickCells } := by
  unfold Universe.tick
  rw [tick_foldlM u hlen (rowMajor u.height u.width)
    (fun p hp => rowMajor_mem.mp hp) u.cells hlen]
  simp [tick_scatter_eq u hlen]

/-! ### Spec-side definitions (written from the specification's words) -/

/-- The B3/S23 transition table as the spec states it: an Alive cell with
fewer than 2 live neighbours becomes Dead, with 2 or 3 stays Alive, with more
than 3 becomes Dead; a Dead cell with exactly 3 becomes Alive, any other Dead
cell stays Dead. -/
def specRule : Cell → Nat → Cell
  | Cell.Alive, n =>
      if n < 2 then Cell.Dead
      else if n = 2 ∨ n = 3 then Cell.Alive
      else Cell.Dead
  | Cell.Dead, n => if n = 3 then Cell.Alive else Cell.Dead

theorem next_cell_eq_specRule (c : Cell) (n : Nat) : next_cell c n = specRule c n := by
  cases c <;> simp only [next_cell, specRule] <;> split_ifs <;> first | rfl | omega

/-- The snapshotted step as the spec describes it: the new sequence maps each
position of the old sequence through the transition rule applied to the old
state and the old-neighbourhood live count. -/
def Universe.snapshotStep (u : Universe) : List Cell :=
  (List.range u.cells.length).map
    (fun i => specRule ((u.cells.get? i).getD Cell.Dead)
      (u.countPure (i / u.width) (i % u.width)))

/-- `tickCells` as a map over linear indices. -/
theorem tickCells_eq_map_range (u : Universe) :
    u.tickCells = (List.range (u.height * u.width)).map u.tickCellLin := by
  unfold Universe.tickCells
  rw [← rowMajor_map_lin u.height u.width, List.map_map]
  apply List.map_congr_left
  intro p hp
  exact (tickCellLin_lin u p (rowMajor_mem.mp hp).2).symm

theorem tickCells_get? (u : Universe) (row col : Nat)
    (hr : row < u.height) (hc : col < u.width) :
    u.tickCells.get? (row * u.width + col)
      = some (next_cell (u.cellAt (row * u.width + col)) (u.countPure row col)) := by
  have hidx : row * u.width + col < u.height * u.width := by
    have h1 := index_lt hr hc
    have h2 : u.width * u.height = u.height * u.width := Nat.mul_comm _ _
    omega
  rw [tickCells_eq_map_range, List.get?_map, List.get?_range hidx]
  have := tickCellLin_lin u (row, col) hc
  simp only [Universe.get_index] at this
  simp [this]

theorem tickCells_length (u : Universe) :
    u.tickCells.length = u.height * u.width := by
  rw [tickCells_eq_map_range, List.length_map, List.length_range]

/-- The eight neighbour offsets as the spec lists them:
`{-1,0,+1} × {-1,0,+1}` without `(0,0)`. -/
def specOffsets : List (Int × Int) :=
  [(-1, -1), (-1, 0), (-1, 1), (0, -1), (0, 1), (1, -1), (1, 0), (1, 1)]

/-- Toroidal wrap of an index by a signed offset, as the spec describes it
(offset `-1` on row 0 wraps to `height-1`, offset `+1` on the last row wraps
to row 0). -/
def specWrap (n : Nat) (i : Nat) (d : Int) : Nat :=
  (((i : Int) + d) % (n : Int)).toNat

/-- Number of Alive cells among the 8 toroidal neighbours, counted once per
offset — the spec's reading of `live_neighbor_count`. -/
def specNeighborCount (u : Universe) (row column : Nat) : Nat :=
  (specOffsets.map (fun d =>
    if u.cells.get? (u.get_index (specWrap u.height row d.1) (specWrap u.width column d.2))
        = some Cell.Alive then 1 else 0)).sum

theorem specWrap_neg_one (n i : Nat) (hn : 1 ≤ n) :
    specWrap n i (-1) = (i + (n - 1)) % n := by
  unfold specWrap
  have h1 : (i : Int) + (-1) = (i : Int) - 1 := by ring
  have h2 : ((i : Int) - 1) % (n : Int) = ((i : Int) - 1 + (n : Int) * 1) % (n : Int) :=
    (Int.add_mul_emod_self_left _ _ _).symm
  have h3 : (i : Int) - 1 + (n : Int) * 1 = ((i + (n - 1) : Nat) : Int) := by
    push_cast [Nat.cast_sub hn]
    ring
  rw [h1, h2, h3, ← Int.natCast_mod, Int.toNat_natCast]

theorem specWrap_zero (n i : Nat) : specWrap n i 0 = (i + 0) % n := by
  unfold specWrap
  have h1 : (i : Int) + 0 = ((i + 0 : Nat) : Int) := by push_cast; ring
  rw [h1, ← Int.natCast_mod, Int.toNat_natCast]

theorem specWrap_one (n i : Nat) : specWrap n i 1 = (i + 1) % n := by
  unfold specWrap
  have h1 : (i : Int) + 1 = ((i + 1 : Nat) : Int) := by push_cast; ring
  rw [h1, ← Int.natCast_mod, Int.toNat_natCast]

/-- On grids with both dimensions at least 2, the loop's skip test removes
exactly the `(0,0)` offset, and the code's count agrees with the spec's
count-once-per-offset reading. -/
theorem countPure_eq_spec (u : Universe) (row col : Nat)
    (hh : 2 ≤ u.height) (hw : 2 ≤ u.width) (hr : row < u.height) (hc : col < u.width) :
    u.countPure row col = specNeighborCount u row col := by
  have wh := specWrap_neg_one u.height row (by omega)
  have wz : specWrap u.height row 0 = (row + 0) % u.height := specWrap_zero _ _
  have wo : specWrap u.height row 1 = (row + 1) % u.height := specWrap_one _ _
  have vh := specWrap_neg_one u.width col (by omega)
  have vz : specWrap u.width col 0 = (col + 0) % u.width := specWrap_zero _ _
  have vo : specWrap u.width col 1 = (col + 1) % u.width := specWrap_one _ _
  have hh1 : ¬(u.height - 1 = 0) := by omega
  have hw1 : ¬(u.width - 1 = 0) := by omega
  unfold Universe.countPure specNeighborCount Universe.neighborDeltas specOffsets
  simp only [List.flatMap_cons, List.flatMap_nil, List.map_cons, List.map_nil,
    List.append_nil, List.cons_append, List.nil_append, List.map_append,
    List.sum_cons, List.sum_nil]
  unfold Universe.contrib
  simp only [wh, wz, wo, vh, vz, vo]
  simp [hh1, hw1]

/-! ### Concrete grids used by examples, witnesses and counterexamples -/

/-- A 3×3 all-dead grid (canvas fields as `new` would produce for 3×3). -/
def deadGrid3 : Universe :=
  { height := 3, width := 3, cells := List.replicate 9 Cell.Dead,
    canvasHeight := 49, canvasWidth := 49 }

/-- A 3×3 grid with a single live cell at (1,1). -/
def oneAliveGrid3 : Universe :=
  { height := 3, width := 3,
    cells := [Cell.Dead, Cell.Dead, Cell.Dead,
              Cell.Dead, Cell.Alive, Cell.Dead,
              Cell.Dead, Cell.Dead, Cell.Dead],
    canvasHeight := 49, canvasWidth := 49 }

/-- A 3×3 grid with a single live cell at (2,2). -/
def wrapGrid3 : Universe :=
  { height := 3, width := 3,
    cells := [Cell.Dead, Cell.Dead, Cell.Dead,
              Cell.Dead, Cell.Dead, Cell.Dead,
              Cell.Dead, Cell.Dead, Cell.Alive],
    canvasHeight := 49, canvasWidth := 49 }

/-- A degenerate 1×3 grid, all cells alive. -/
def degenerateRow3 : Universe :=
  { height := 1, width := 3,
    cells := [Cell.Alive, Cell.Alive, Cell.Alive],
    canvasHeight := 0, canvasWidth := 0 }

/-! ### Claim theorems -/

/-- C1: for every dimension-consistent grid and in-range cell, the state
after `tick` at that cell is the B3/S23 rule applied to the old state and the
old live-neighbour count; moreover a 3×3 all-dead grid stays all-dead and a
3×3 grid with a single live cell becomes all-dead. -/
theorem tick_follows_life_rule :
    (∀ (u : Universe) (row col : Nat),
      u.cells.length = u.width * u.height → row < u.height → col < u.width →
      ∃ (u' : Universe) (cnt : Nat),
        u.tick = some u' ∧
        u.live_neighbor_count row col = some cnt ∧
        u'.cells.get? (row * u.width + col)
          = some (specRule (u.cellAt (row * u.width + col)) cnt))
    ∧ deadGrid3.tick = some deadGrid3
    ∧ oneAliveGrid3.tick = some deadGrid3 := by
  refine ⟨?_, by decide, by decide⟩
  intro u row col hlen hr hc
  have hh : u.height ≠ 0 := by omega
  have hw : u.width ≠ 0 := by omega
  refine ⟨{ u with cells := u.tickCells }, u.countPure row col, tick_eq u hlen,
    live_neighbor_count_eq u row col hh hw hlen, ?_⟩
  show u.tickCells.get? _ = _
  rw [tickCells_get? u row col hr hc, next_cell_eq_specRule]

theorem tick_follows_life_rule_witness :
    ∃ (u' : Universe) (cnt : Nat),
      oneAliveGrid3.tick = some u' ∧
      oneAliveGrid3.live_neighbor_count 1 1 = some cnt ∧
      u'.cells.get? (1 * oneAliveGrid3.width + 1)
        = some (specRule (oneAliveGrid3.cellAt (1 * oneAliveGrid3.width + 1)) cnt) :=
  tick_follows_life_rule.1 oneAliveGrid3 1 1 (by decide) (by decide) (by decide)

/-- C3: `tick` equals the pure pointwise function mapping the old cell
sequence to the new one — each position is the transition rule applied to the
old state and the old-neighbourhood live count, so the order of cell
visitation is irrelevant. -/
theorem tick_snapshot_semantics (u : Universe)
    (hlen : u.cells.length = u.width * u.height) :
    u.tick = some { u with cells := u.snapshotStep } := by
  rw [tick_eq u hlen]
  have hcells : u.tickCells = u.snapshotStep := by
    rw [tickCells_eq_map_range]
    unfold Universe.snapshotStep
    rw [hlen, Nat.mul_comm]
    apply List.map_congr_left
    intro i _
    unfold Universe.tickCellLin Universe.cellAt
    rw [next_cell_eq_specRule]
  rw [hcells]

theorem tick_snapshot_semantics_witness :
    oneAliveGrid3.tick = some { oneAliveGrid3 with cells := oneAliveGrid3.snapshotStep } :=
  tick_snapshot_semantics oneAliveGrid3 (by decide)

/-- C4 (amended): on grids with both dimensions at least 2,
`live_neighbor_count` returns the number of Alive cells among the 8 toroidal
neighbour offsets, counted once per offset, and the result never exceeds 8;
on a 3×3 grid, cell (2,2) alive is counted as a (wraparound) neighbour of
(0,0).  (On grids of height 1 or width 1, the loop's value-based skip test
also removes the wrapped offsets whose computed deltas are both zero, so the
count there is smaller than once-per-offset.) -/
theorem live_neighbor_count_offsets (u : Universe) (row col : Nat)
    (hlen : u.cells.length = u.width * u.height)
    (hh : 2 ≤ u.height) (hw : 2 ≤ u.width) (hr : row < u.height) (hc : col < u.width) :
    (u.live_neighbor_count row col = some (specNeighborCount u row col)
      ∧ specNeighborCount u row col ≤ 8)
    ∧ wrapGrid3.live_neighbor_count 0 0 = some 1 := by
  have h0 : u.height ≠ 0 := by omega
  have w0 : u.width ≠ 0 := by omega
  have heq := countPure_eq_spec u row col hh hw hr hc
  exact ⟨⟨by rw [live_neighbor_count_eq u row col h0 w0 hlen, heq],
    heq ▸ countPure_le_eight u row col⟩, by decide⟩

theorem live_neighbor_count_offsets_witness :
    (wrapGrid3.live_neighbor_count 0 0 = some (specNeighborCount wrapGrid3 0 0)
      ∧ specNeighborCount wrapGrid3 0 0 ≤ 8)
    ∧ wrapGrid3.live_neighbor_count 0 0 = some 1 :=
  live_neighbor_count_offsets wrapGrid3 0 0 (by decide) (by decide) (by decide)
    (by decide) (by decide)

/-- C4 counterexample: on a 1×3 grid (height 1), `live_neighbor_count` does
not count duplicated positions once per offset: with all three cells alive it
returns 7, while the once-per-offset count of the 8 toroidal neighbours is 8
(the skip test `delta_row == 0 && delta_col == 0` also removes the pair whose
wrapped row delta `height - 1` evaluates to 0). -/
theorem live_neighbor_count_once_per_offset_false :
    degenerateRow3.live_neighbor_count 0 1
        ≠ some (specNeighborCount degenerateRow3 0 1)
    ∧ degenerateRow3.live_neighbor_count 0 1 = some 7
    ∧ specNeighborCount degenerateRow3 0 1 = 8 := by decide

/-- C5: the constructor passes `(CELL_SIZE+1)*width+1` to the canvas *height*
setter and `(CELL_SIZE+1)*height+1` to the canvas *width* setter — swapped
relative to the spec and to `set_width`/`set_height`, which update their own
dimension as the spec states. -/
theorem canvas_dimensions_swapped_in_new :
    (Universe.new 2 3 (fun _ => false)).canvasWidth = (CELL_SIZE + 1) * 3 + 1
    ∧ (Universe.new 2 3 (fun _ => false)).canvasHeight = (CELL_SIZE + 1) * 2 + 1
    ∧ (Universe.new 2 3 (fun _ => false)).canvasWidth
        ≠ (CELL_SIZE + 1) * (Universe.new 2 3 (fun _ => false)).width + 1
    ∧ (∀ (u : Universe) (n : Nat),
        (u.set_width n).canvasWidth = (CELL_SIZE + 1) * n + 1
        ∧ (u.set_height n).canvasHeight = (CELL_SIZE + 1) * n + 1) := by
  refine ⟨by decide, by decide, by decide, ?_⟩
  intro u n
  exact ⟨rfl, rfl⟩

/-- C7: `set_width n` (resp. `set_height n`) sets the dimension to `n`,
leaves the other dimension unchanged, and resets the whole cell vector to
Dead cells. -/
theorem resize_resets (u : Universe) (n : Nat) :
    (u.set_width n).width = n
    ∧ (u.set_width n).height = u.height
    ∧ (u.set_width n).cells = List.replicate (n * u.height) Cell.Dead
    ∧ (u.set_height n).height = n
    ∧ (u.set_height n).width = u.width
    ∧ (u.set_height n).cells = List.replicate (n * u.width) Cell.Dead := by
  refine ⟨rfl, rfl, ?_, rfl, rfl, ?_⟩ <;>
    simp [Universe.set_width, Universe.set_height, List.map_const']

/-- C8 (amended): on a dimension-consistent grid, `tick` never fails (all of
its internal index accesses are in bounds) — the same holds trivially for
`random_mutate`, `set_width` and `set_height`, which are total — but
`render` fails exactly when `width = 0`, because `slice::chunks` panics on a
zero chunk size. -/
theorem step_render_totality (u : Universe)
    (hlen : u.cells.length = u.width * u.height) :
    (u.tick).isSome ∧ ((u.render).isSome ↔ u.width ≠ 0) := by
  constructor
  · rw [tick_eq u hlen]; rfl
  · unfold Universe.render
    by_cases hw : u.width = 0 <;> simp [hw]

theorem step_render_totality_witness :
    ((Universe.new 2 2 (fun _ => false)).tick).isSome
    ∧ (((Universe.new 2 2 (fun _ => false)).render).isSome
        ↔ (Universe.new 2 2 (fun _ => false)).width ≠ 0) :=
  step_render_totality (Universe.new 2 2 (fun _ => false)) (by decide)

/-- C8 counterexample: after `set_width(0)` — a valid empty grid — `render`
fails (the `chunks(0)` assertion panics), so not all query operations are
total on width-0 grids. -/
theorem render_fails_at_zero_width :
    ((Universe.new 3 3 (fun _ => false)).set_width 0).render = none := rfl

/-! ### Operation sequences (for the dimension invariant) -/

/-- One mutating API call on the universe. -/
inductive Op where
  | step : Op
  | randomMutate : (Nat → Bool) → Op
  | setWidth : Nat → Op
  | setHeight : Nat → Op
  | toggleCell : Nat → Nat → Op
  | setAliveCell : Nat → Nat → Op
  | setCellsOp : List (Nat × Nat) → Op

/-- Apply one operation (`none` models a panic). -/
def applyOp (u : Universe) : Op → Option Universe
  | Op.step => u.tick
  | Op.randomMutate rnd => some (u.random_mutate rnd)
  | Op.setWidth n => some (u.set_width n)
  | Op.setHeight n => some (u.set_height n)
  | Op.toggleCell r c => u.toggle_cell r c
  | Op.setAliveCell r c => u.set_alive_cell r c
  | Op.setCellsOp ps => u.set_cells ps

/-- Run a sequence of operations, stopping at the first panic. -/
def runOps (u : Universe) (ops : List Op) : Option Universe :=
  ops.foldlM applyOp u

theorem setCellsStep_dims {u u' : Universe} {p : Nat × Nat}
    (h : u.setCellsStep p = some u') :
    u'.width = u.width ∧ u'.height = u.height ∧ u'.cells.length = u.cells.length := by
  unfold Universe.setCellsStep at h
  split_ifs at h with hidx
  · cases h
    exact ⟨rfl, rfl, List.length_set _ _ _⟩

theorem set_cells_dims :
    ∀ (ps : List (Nat × Nat)) (u u' : Universe), u.set_cells ps = some u' →
      u'.width = u.width ∧ u'.height = u.height ∧ u'.cells.length = u.cells.length := by
  intro ps
  induction ps with
  | nil =>
      intro u u' h
      unfold Universe.set_cells at h
      simp at h
      cases h
      exact ⟨rfl, rfl, rfl⟩
  | cons p ps ih =>
      intro u u' h
      unfold Universe.set_cells at h
      rw [List.foldlM_cons] at h
      cases hs : u.setCellsStep p with
      | none => rw [hs] at h; simp at h
      | some v =>
          rw [hs] at h
          have h2 : v.set_cells ps = some u' := h
          have d1 := setCellsStep_dims hs
          have d2 := ih v u' h2
          exact ⟨d2.1.trans d1.1, d2.2.1.trans d1.2.1, d2.2.2.trans d1.2.2⟩

theorem applyOp_preserves {u u' : Universe} {op : Op}
    (hlen : u.cells.length = u.width * u.height) (h : applyOp u op = some u') :
    u'.cells.length = u'.width * u'.height := by
  cases op with
  | step =>
      simp only [applyOp] at h
      rw [tick_eq u hlen] at h
      cases h
      show u.tickCells.length = u.width * u.height
      rw [tickCells_length, Nat.mul_comm]
  | randomMutate rnd =>
      simp only [applyOp] at h
      cases h
      simp [Universe.random_mutate, random_cells]
  | setWidth n =>
      simp only [applyOp] at h
      cases h
      simp [Universe.set_width]
  | setHeight n =>
      simp only [applyOp] at h
      cases h
      simp [Universe.set_height, Nat.mul_comm]
  | toggleCell r c =>
      simp only [applyOp, Universe.toggle_cell] at h
      cases hv : u.cells.get? (u.get_index r c) with
      | none => rw [hv] at h; simp at h
      | some v =>
          rw [hv] at h
          simp at h
          cases h
          simp [List.length_set, hlen]
  | setAliveCell r c =>
      simp only [applyOp, Universe.set_alive_cell] at h
      cases hv : u.cells.get? (u.get_index r c) with
      | none => rw [hv] at h; simp at h
      | some v =>
          rw [hv] at h
          simp at h
          cases h
          simp [List.length_set, hlen]
  | setCellsOp ps =>
      simp only [applyOp] at h
      have d := set_cells_dims ps u u' h
      rw [d.1, d.2.1, d.2.2, hlen]

theorem runOps_preserves :
    ∀ (ops : List Op) (u u' : Universe), u.cells.length = u.width * u.height →
      runOps u ops = some u' → u'.cells.length = u'.width * u'.height := by
  intro ops
  induction ops with
  | nil =>
      intro u u' hlen h
      unfold runOps at h
      simp at h
      cases h
      exact hlen
  | cons op ops ih =>
      intro u u' hlen h
      unfold runOps at h
      rw [List.foldlM_cons] at h
      cases ha : applyOp u op with
      | none => rw [ha] at h; simp at h
      | some v =>
          rw [ha] at h
          exact ih v u' (applyOp_preserves hlen ha) h

/-- C2: starting from any freshly constructed grid, after any sequence of
operations that completes, the cell-sequence length equals `width * height`. -/
theorem dimension_invariant (width height : Nat) (rnd : Nat → Bool)
    (ops : List Op) (u' : Universe)
    (hrun : runOps (Universe.new width height rnd) ops = some u') :
    u'.cells.length = u'.width * u'.height :=
  runOps_preserves ops (Universe.new width height rnd) u'
    (by simp [Universe.new, random_cells]) hrun

theorem dimension_invariant_witness :
    ({ height := 2, width := 3, cells := List.replicate 6 Cell.Dead,
       canvasHeight := 33, canvasWidth := 49 } : Universe).cells.length
      = ({ height := 2, width := 3, cells := List.replicate 6 Cell.Dead,
           canvasHeight := 33, canvasWidth := 49 } : Universe).width
        * ({ height := 2, width := 3, cells := List.replicate 6 Cell.Dead,
             canvasHeight := 33, canvasWidth := 49 } : Universe).height :=
  dimension_invariant 2 2 (fun _ => false) [Op.step, Op.setWidth 3] _ (by decide)

/-! ### Toggle / set-alive algebra -/

theorem Cell.toggle_toggle (c : Cell) : c.toggle.toggle = c := by
  cases c <;> rfl

theorem set_get?_self {l : List Cell} {i : Nat} {v : Cell} (h : l.get? i = some v) :
    l.set i v = l := by
  apply List.ext_get?
  intro j
  rw [List.get?_set]
  split_ifs with hij
  · subst hij
    rw [h]
    rfl
  · rfl

/-- A 2×2 grid with one live cell, used for witnesses. -/
def twoByTwoGrid : Universe :=
  { height := 2, width := 2,
    cells := [Cell.Alive, Cell.Dead, Cell.Dead, Cell.Dead],
    canvasHeight := 33, canvasWidth := 33 }

/-- C6: toggling an in-range cell twice restores the grid, and setting a cell
alive twice equals setting it alive once. -/
theorem toggle_twice_set_alive_idempotent (u : Universe) (row col : Nat)
    (hlen : u.cells.length = u.width * u.height)
    (hr : row < u.height) (hc : col < u.width) :
    (u.toggle_cell row col).bind (fun v => v.toggle_cell row col) = some u
    ∧ (u.set_alive_cell row col).bind (fun v => v.set_alive_cell row col)
        = u.set_alive_cell row col := by
  have hidx : row * u.width + col < u.cells.length := by
    rw [hlen]
    exact index_lt hr hc
  cases hv : u.cells[row * u.width + col]? with
  | none =>
      rw [← List.get?_eq_getElem?] at hv
      exact absurd (List.get?_eq_none.mp hv) (by omega)
  | some v =>
      have hvG : u.cells.get? (row * u.width + col) = some v := by
        rw [List.get?_eq_getElem?]
        exact hv
      have hv1 : (u.cells.set (row * u.width + col) v.toggle)[row * u.width + col]?
          = some v.toggle := by
        rw [← List.get?_eq_getElem?]
        exact List.get?_set_eq_of_lt _ hidx
      have hv2 : (u.cells.set (row * u.width + col) Cell.Alive)[row * u.width + col]?
          = some Cell.Alive := by
        rw [← List.get?_eq_getElem?]
        exact List.get?_set_eq_of_lt _ hidx
      constructor
      · simp [Universe.toggle_cell, Universe.get_index, hv, hv1, List.set_set,
          Cell.toggle_toggle, set_get?_self hvG]
      · simp [Universe.set_alive_cell, Universe.get_index, hv, hv2, Cell.set_alive,
          List.set_set]

theorem toggle_twice_set_alive_idempotent_witness :
    (twoByTwoGrid.toggle_cell 1 0).bind (fun v => v.toggle_cell 1 0) = some twoByTwoGrid
    ∧ (twoByTwoGrid.set_alive_cell 1 0).bind (fun v => v.set_alive_cell 1 0)
        = twoByTwoGrid.set_alive_cell 1 0 :=
  toggle_twice_set_alive_idempotent twoByTwoGrid 1 0 (by decide) (by decide) (by decide)

/-- C10: `toggle_cell`, `set_alive_cell` and `set_cells` access the linear
index `row * width + col` without any per-coordinate bounds check: they
succeed (and mutate exactly that linear index) whenever
`row * width + col < width * height` — even when `col ≥ width` — and panic
exactly when `row * width + col ≥ width * height`. -/
theorem mutations_use_linear_index (u : Universe) (row col : Nat)
    (hlen : u.cells.length = u.width * u.height) :
    (row * u.width + col < u.width * u.height →
      (∃ old, u.cells.get? (row * u.width + col) = some old
        ∧ u.toggle_cell row col
            = some { u with cells := u.cells.set (row * u.width + col) old.toggle })
      ∧ u.set_alive_cell row col
          = some { u with cells := u.cells.set (row * u.width + col) Cell.Alive }
      ∧ u.set_cells [(row, col)]
          = some { u with cells := u.cells.set (row * u.width + col) Cell.Alive })
    ∧ (u.width * u.height ≤ row * u.width + col →
      u.toggle_cell row col = none ∧ u.set_alive_cell row col = none
      ∧ u.set_cells [(row, col)] = none) := by
  constructor
  · intro hidx
    have hlt : row * u.width + col < u.cells.length := by
      rw [hlen]
      exact hidx
    cases hv : u.cells[row * u.width + col]? with
    | none =>
        rw [← List.get?_eq_getElem?] at hv
        exact absurd (List.get?_eq_none.mp hv) (by omega)
    | some v =>
        have hvG : u.cells.get? (row * u.width + col) = some v := by
          rw [List.get?_eq_getElem?]
          exact hv
        refine ⟨⟨v, hvG, ?_⟩, ?_, ?_⟩
        · simp [Universe.toggle_cell, Universe.get_index, hv]
        · simp [Universe.set_alive_cell, Universe.get_index, hv, Cell.set_alive]
        · simp [Universe.set_cells, Universe.setCellsStep, Universe.get_index, hlt]
  · intro hge
    have hnone : u.cells[row * u.width + col]? = none := by
      rw [← List.get?_eq_getElem?]
      exact List.get?_len_le (by rw [hlen]; exact hge)
    have hnlt : ¬(row * u.width + col < u.cells.length) := by
      rw [hlen]
      omega
    refine ⟨?_, ?_, ?_⟩
    · simp [Universe.toggle_cell, Universe.get_index, hnone]
    · simp [Universe.set_alive_cell, Universe.get_index, hnone]
    · simp [Universe.set_cells, Universe.setCellsStep, Universe.get_index, hnlt]


theorem mutations_use_linear_index_witness :
    (∃ old, twoByTwoGrid.cells.get? (0 * twoByTwoGrid.width + 3) = some old
      ∧ twoByTwoGrid.toggle_cell 0 3
          = some { twoByTwoGrid with
              cells := twoByTwoGrid.cells.set (0 * twoByTwoGrid.width + 3) old.toggle })
    ∧ twoByTwoGrid.set_alive_cell 0 3
        = some { twoByTwoGrid with
            cells := twoByTwoGrid.cells.set (0 * twoByTwoGrid.width + 3) Cell.Alive }
    ∧ twoByTwoGrid.set_cells [(0, 3)]
        = some { twoByTwoGrid with
            cells := twoByTwoGrid.cells.set (0 * twoByTwoGrid.width + 3) Cell.Alive } :=
  (mutations_use_linear_index twoByTwoGrid 0 3 (by decide)).1 (by decide)

/-! ### Rendering -/

theorem take_eq_map_range (l : List Cell) (w : Nat) (hw : w ≤ l.length) :
    l.take w = (List.range w).map (fun c => (l.get? c).getD Cell.Dead) := by
  apply List.ext_get?
  intro j
  rw [List.get?_map]
  by_cases hj : j < w
  · rw [List.get?_take hj, List.get?_range hj]
    cases hv : l.get? j with
    | none =>
        have := List.get?_eq_none.mp hv
        omega
    | some v =>
        rw [List.get?_eq_getElem?] at hv
        simp [hv]
  · rw [List.get?_len_le (l := l.take w) (by rw [List.length_take]; omega),
      List.get?_len_le (l := List.range w) (by rw [List.length_range]; omega)]
    rfl

theorem chunksList_eq (w : Nat) (hw : w ≠ 0) :
    ∀ (h : Nat) (l : List Cell), l.length = w * h →
      chunksList w l
        = (List.range h).map
            (fun r => (List.range w).map (fun c => (l.get? (r * w + c)).getD Cell.Dead)) := by
  intro h
  induction h with
  | zero =>
      intro l hl
      have hnil : l = [] := List.length_eq_zero.mp (by simpa using hl)
      rw [hnil]
      rw [chunksList]
      simp
  | succ n ih =>
      intro l hl
      have hpos : 0 < w * (n + 1) := Nat.mul_pos (Nat.pos_of_ne_zero hw) (Nat.succ_pos n)
      have hnil : l ≠ [] := by
        intro h0
        rw [h0] at hl
        simp at hl
        omega
      rw [chunksList, dif_neg (by push_neg; exact ⟨hw, hnil⟩)]
      have hdl : (l.drop w).length = w * n := by
        rw [List.length_drop, hl, Nat.mul_succ]
        omega
      rw [ih (l.drop w) hdl,
        take_eq_map_range l w (by rw [hl, Nat.mul_succ]; omega),
        List.range_succ_eq_map, List.map_cons]
      congr 1
      · apply List.map_congr_left
        intro c _
        simp
      · rw [List.map_map]
        apply List.map_congr_left
        intro r _
        simp only [Function.comp]
        apply List.map_congr_left
        intro c _
        rw [List.get?_drop]
        congr 2
        rw [Nat.succ_mul]
        generalize r * w = m
        omega

theorem join_cons (s : String) (l : List String) :
    String.join (s :: l) = s ++ String.join l := by
  simp [String.join_eq]
  rfl

theorem foldl_append_join (f : List Cell → String) :
    ∀ (lines : List (List Cell)) (acc : String),
      lines.foldl (fun a line => a ++ f line ++ "\n") acc
        = acc ++ String.join (lines.map (fun line => f line ++ "\n")) := by
  intro lines
  induction lines with
  | nil =>
      intro acc
      show acc = acc ++ String.join []
      rw [show String.join [] = "" from rfl, String.append_empty]
  | cons line lines ih =>
      intro acc
      rw [List.foldl_cons, ih, List.map_cons, join_cons]
      simp [String.append_assoc]

/-- C9 (amended): on every grid with `width ≥ 1` (and consistent cell-vector
length), `render` returns one line per row — one glyph per cell in row-major
order, `'◻'` for Dead and `'◼'` for Alive — each row terminated by a
newline. -/
theorem render_textual (u : Universe) (hw : u.width ≠ 0)
    (hlen : u.cells.length = u.width * u.height) :
    u.render = some (String.join ((List.range u.height).map
      (fun r => String.mk ((List.range u.width).map
        (fun c => cellGlyph (u.cellAt (r * u.width + c)))) ++ "\n"))) := by
  unfold Universe.render
  rw [if_neg hw, chunksList_eq u.width hw u.height u.cells hlen,
    foldl_append_join (fun line => String.mk (line.map cellGlyph)), List.map_map]
  have hemp : ∀ (s : String), "" ++ s = s := fun s => by simp
  rw [hemp]
  congr 2
  apply List.map_congr_left
  intro r _
  simp only [Function.comp]
  rw [List.map_map]
  rfl

theorem render_textual_witness :
    twoByTwoGrid.render = some (String.join ((List.range twoByTwoGrid.height).map
      (fun r => String.mk ((List.range twoByTwoGrid.width).map
        (fun c => cellGlyph (twoByTwoGrid.cellAt (r * twoByTwoGrid.width + c)))) ++ "\n"))) :=
  render_textual twoByTwoGrid (by decide) (by decide)

/-- C9 counterexample: on a width-0 grid (reachable via `set_width 0`),
`render` panics instead of returning a textual representation. -/
theorem render_returns_nothing_at_zero_width :
    ((Universe.new 1 1 (fun _ => false)).set_width 0).render = none := rfl


end GameOfLife
